import Mathlib

/-!
Shallow embedding of the Online-Banking-System repository.

The repository has two front-ends over one SQLite database `bank.db`:

* `src/app.py` — a Flask web application whose handlers run SQL directly
  against the store and always read balances fresh from the
  `accounts` table;
* `src/online-banking-system.py` — a console application whose `Bank`
  class keeps an in-memory `current_user` dictionary (a cached identity
  including a cached `balance`) and a JWT `token`.

The SQLite store is embedded as lists of rows (`accounts`, `users`,
`transactions`) plus the AUTOINCREMENT counter of the `transactions`
table.  Monetary amounts (SQLite REAL, Python float) are embedded as
rationals, matching the specification's fixed-point currency reading.
Each SQL statement of the source is translated row-by-row: UPDATE with a
WHERE clause is a map over the row list, SELECT ... fetchone() is
`List.find?`, INSERT is an append.  Server-assigned CURRENT_TIMESTAMP
values are passed in as an explicit `now : Nat` parameter.
-/

/-- Row of the `accounts` table: accounts(account_number PRIMARY KEY, name, balance). -/
structure Account where
  account_number : String
  name : String
  balance : ℚ
deriving DecidableEq

/-- Row of the `users` table: users(username PRIMARY KEY, account_number UNIQUE, password_hash). -/
structure UserRow where
  username : String
  account_number : String
  password_hash : String
deriving DecidableEq

/-- Row of the `transactions` table:
transactions(id AUTOINCREMENT, account_number, type, amount, related_account, timestamp). -/
structure TxRecord where
  id : Nat
  account_number : String
  type : String
  amount : ℚ
  related_account : Option String
  timestamp : Nat
deriving DecidableEq

/-- The persistent store `bank.db`: the three tables, in insertion order,
plus the next AUTOINCREMENT id of the `transactions` table. -/
structure DB where
  accounts : List Account
  users : List UserRow
  transactions : List TxRecord
  nextTxId : Nat
deriving DecidableEq

/-- First row of an account list matching a key (SELECT ... fetchone()
restricted to the accounts relation). -/
def findAcc (accounts : List Account) (acct : String) : Option Account :=
  accounts.find? (fun a => a.account_number == acct)

/-- SELECT * FROM accounts WHERE account_number = ? followed by fetchone():
the first row matching the key, if any. -/
def findAccount (db : DB) (acct : String) : Option Account :=
  findAcc db.accounts acct

/-- SELECT balance FROM accounts WHERE account_number = ? (fetchone). -/
def getBalance (db : DB) (acct : String) : Option ℚ :=
  (findAccount db acct).map Account.balance

/-- UPDATE accounts SET balance = balance + ? WHERE account_number = ?.
The SQL UPDATE touches every row matching the WHERE clause, so this is a
map over the row list (the PRIMARY KEY makes at most one row match in a
schema-consistent store). -/
def updateBalance (accounts : List Account) (acct : String) (delta : ℚ) : List Account :=
  accounts.map (fun a =>
    if a.account_number = acct then { a with balance := a.balance + delta } else a)

/-- Sum of all stored balances (the conserved quantity of a transfer). -/
def totalBalance (accounts : List Account) : ℚ :=
  (accounts.map Account.balance).sum

/-- All stored balances are non-negative. -/
def nonNegBalances (db : DB) : Prop :=
  ∀ a ∈ db.accounts, 0 ≤ a.balance

instance (db : DB) : Decidable (nonNegBalances db) :=
  inferInstanceAs (Decidable (∀ a ∈ db.accounts, 0 ≤ a.balance))

/-- Schema consistency of the accounts table: account_number is its
PRIMARY KEY, so the stored keys are pairwise distinct. -/
def pkOK (db : DB) : Prop :=
  (db.accounts.map Account.account_number).Nodup

instance (db : DB) : Decidable (pkOK db) :=
  inferInstanceAs (Decidable (db.accounts.map Account.account_number).Nodup)

/-- Outcome reported by a handler (flash message, print, or uncaught
exception in the source). -/
inductive OpResult where
  | success
  | invalidAmount
  | insufficientFunds
  | selfTransfer
  | accountNotFound
  | duplicateUsername
  | integrityError
  | notLoggedIn
  | fault
deriving DecidableEq

/-- hashlib.sha256(password.encode()).hexdigest(), an external library
call.  Only equality comparisons of hashes occur in the source, so the
hash is embedded as an injective tagging of the password. -/
def hash_password (password : String) : String :=
  "sha256:" ++ password

/-- SELECT * FROM transactions WHERE account_number = ? ORDER BY
timestamp DESC LIMIT limit.  The scan feeds rows in insertion order; the
sort is embedded as a stable descending sort on the timestamp (SQL fixes
no order among equal keys; the stable sort keeps scan order there), and
LIMIT truncates afterwards. -/
def queryHistory (db : DB) (acct : String) (limit : Nat) : List TxRecord :=
  (List.insertionSort (fun a b => b.timestamp ≤ a.timestamp)
    (db.transactions.filter (fun t => t.account_number == acct))).take limit

namespace App

/-- The register route of src/app.py (lines 97-128): reject a duplicate
username before any write, otherwise insert the new account row and the
new user row and commit.  The account_number is produced in the source
from the current timestamp; it is taken here as a parameter.  If it
collided with an existing PRIMARY KEY the INSERT would raise
IntegrityError and nothing would be committed (integrityError branch). -/
def register (db : DB) (username password name : String) (initial_deposit : ℚ)
    (account_number : String) : DB × OpResult :=
  if (db.users.find? (fun u => u.username == username)).isSome then
    (db, .duplicateUsername)
  else if (findAccount db account_number).isSome then
    (db, .integrityError)
  else
    ({ db with
        accounts := db.accounts ++ [⟨account_number, name, initial_deposit⟩],
        users := db.users ++ [⟨username, account_number, hash_password password⟩] },
      .success)

/-- The deposit route of src/app.py (lines 148-172): reject amount ≤ 0,
otherwise add the amount to the stored balance and insert a Deposit
record, in one commit. -/
def deposit (db : DB) (acct : String) (now : Nat) (amount : ℚ) : DB × OpResult :=
  if amount ≤ 0 then (db, .invalidAmount)
  else
    ({ db with
        accounts := updateBalance db.accounts acct amount,
        transactions := db.transactions ++ [⟨db.nextTxId, acct, "Deposit", amount, none, now⟩],
        nextTxId := db.nextTxId + 1 },
      .success)

/-- The withdraw route of src/app.py (lines 174-202): reject amount ≤ 0;
read the balance fresh from the store and reject amount > balance;
otherwise subtract the amount and insert a Withdrawal record in one
commit.  A missing session account would crash the handler on
account[balance] (fault branch). -/
def withdraw (db : DB) (acct : String) (now : Nat) (amount : ℚ) : DB × OpResult :=
  if amount ≤ 0 then (db, .invalidAmount)
  else
    match getBalance db acct with
    | none => (db, .fault)
    | some bal =>
      if amount > bal then (db, .insufficientFunds)
      else
        ({ db with
            accounts := updateBalance db.accounts acct (-amount),
            transactions :=
              db.transactions ++ [⟨db.nextTxId, acct, "Withdrawal", amount, none, now⟩],
            nextTxId := db.nextTxId + 1 },
          .success)

/-- The transfer route of src/app.py (lines 204-262): reject a
self-transfer, then a missing recipient, then amount > sender balance
(read fresh from the store); otherwise debit the sender, credit the
recipient and insert the Transfer Sent and Transfer Received records,
all in one commit.  The source never checks amount > 0.  A missing
sender row would crash on fetchone()[balance] (fault branch). -/
def transfer (db : DB) (fromAcct : String) (now : Nat) (toAcct : String) (amount : ℚ) :
    DB × OpResult :=
  if toAcct = fromAcct then (db, .selfTransfer)
  else
    match findAccount db toAcct with
    | none => (db, .accountNotFound)
    | some _ =>
      match getBalance db fromAcct with
      | none => (db, .fault)
      | some senderBal =>
        if amount > senderBal then (db, .insufficientFunds)
        else
          ({ db with
              accounts :=
                updateBalance (updateBalance db.accounts fromAcct (-amount)) toAcct amount,
              transactions := db.transactions ++
                [⟨db.nextTxId, fromAcct, "Transfer Sent", amount, some toAcct, now⟩,
                 ⟨db.nextTxId + 1, toAcct, "Transfer Received", amount, some fromAcct, now⟩],
              nextTxId := db.nextTxId + 2 },
            .success)

/-- The dashboard route of src/app.py (lines 130-146) lists the most
recent transactions with LIMIT 5. -/
def dashboardTransactions (db : DB) (acct : String) : List TxRecord :=
  queryHistory db acct 5

end App

/-- One store-level operation of the engine, with the server-assigned
inputs (timestamp, generated account number) made explicit. -/
inductive Op where
  | register (username password name : String) (initial_deposit : ℚ) (account_number : String)
  | deposit (acct : String) (now : Nat) (amount : ℚ)
  | withdraw (acct : String) (now : Nat) (amount : ℚ)
  | transfer (fromAcct : String) (now : Nat) (toAcct : String) (amount : ℚ)

/-- Resulting store of one operation (the committed state, whatever the
reported outcome). -/
def applyOp (db : DB) : Op → DB
  | .register u p n d a => (App.register db u p n d a).1
  | .deposit acct now amount => (App.deposit db acct now amount).1
  | .withdraw acct now amount => (App.withdraw db acct now amount).1
  | .transfer f now t amount => (App.transfer db f now t amount).1

/-- Resulting store of a sequence of operations. -/
def applyOps (db : DB) (ops : List Op) : DB :=
  ops.foldl applyOp db

/-- Requests whose amounts pass the validation the specification
prescribes: transfers carry a positive amount and registrations a
non-negative initial deposit.  (The source enforces neither.) -/
def Op.guarded : Op → Prop
  | .register _ _ _ d _ => 0 ≤ d
  | .transfer _ _ _ amount => 0 < amount
  | _ => True

/-! ### The console engine of src/online-banking-system.py

The Bank class holds the store connection, the logged-in identity
dictionary current_user (including the cached balance written at login
and updated after each successful mutation) and a JWT token.  The jwt
library is external; its contract (HS256-signed payload with an exp
claim, decode raising ExpiredSignatureError past expiry and
InvalidTokenError on a bad signature) is embedded as a payload carrying
an explicit signature-validity flag. -/

/-- Claims of the JWT issued by Bank._generate_token: username,
account_number and the expiry instant. -/
structure TokenPayload where
  username : String
  account_number : String
  exp : Nat
deriving DecidableEq

/-- A presented JWT: its payload together with whether its HS256
signature over SECRET_KEY is intact (false models a malformed or
tampered token). -/
structure Token where
  payload : TokenPayload
  signed : Bool
deriving DecidableEq

/-- Outcome of Bank._verify_token. -/
inductive TokenCheck where
  | valid (payload : TokenPayload)
  | expired
  | invalid
deriving DecidableEq

/-- The current_user dictionary built by Bank.login (lines 184-207):
username, account_number, display name, and the cached balance. -/
structure Identity where
  username : String
  account_number : String
  name : String
  balance : ℚ
deriving DecidableEq

/-- The console Bank object: its store connection, the logged-in
identity (none before login) and the issued token. -/
structure Bank where
  db : DB
  current_user : Option Identity
  token : Option Token
deriving DecidableEq

namespace Bank

/-- TOKEN_EXPIRATION_MINUTES of src/online-banking-system.py line 12. -/
def TOKEN_EXPIRATION_MINUTES : Nat := 30

/-- Bank._generate_token (lines 137-145): a token over {username,
account_number} expiring TOKEN_EXPIRATION_MINUTES after issuance,
signed with the process SECRET_KEY. -/
def generate_token (username account_number : String) (now : Nat) : Token :=
  ⟨⟨username, account_number, now + TOKEN_EXPIRATION_MINUTES⟩, true⟩

/-- Bank._verify_token (lines 147-157): jwt.decode returns the payload,
raises InvalidTokenError on a bad signature and ExpiredSignatureError
once the exp claim has passed; both are caught and reported. -/
def verify_token (t : Token) (now : Nat) : TokenCheck :=
  if ¬ t.signed then .invalid
  else if t.payload.exp ≤ now then .expired
  else .valid t.payload

/-- Bank.register (lines 159-182): same SQL sequence as the web route —
reject a duplicate username before any write, else insert the account
row and the user row and commit, returning True.  The timestamp-derived
account number is a parameter; a PRIMARY KEY collision would raise in
cursor.execute and be swallowed by the error_handler decorator before
the commit (modelled as an unchanged store returning false). -/
def register (b : Bank) (username password name : String) (initial_deposit : ℚ)
    (account_number : String) : Bank × Bool :=
  if (b.db.users.find? (fun u => u.username == username)).isSome then
    (b, false)
  else if (findAccount b.db account_number).isSome then
    (b, false)
  else
    ({ b with db := { b.db with
        accounts := b.db.accounts ++ [⟨account_number, name, initial_deposit⟩],
        users := b.db.users ++ [⟨username, account_number, hash_password password⟩] } },
      true)

/-- Bank.login (lines 184-207): look the username up, compare password
hashes, then issue the token, build current_user and fill in the name
and the cached balance from a fresh SELECT on accounts.  A user row
whose account row is missing would crash on account_details[0] inside
the error_handler; that aborted login is modelled as a failure leaving
the object unchanged. -/
def login (b : Bank) (now : Nat) (username password : String) : Bank × Bool :=
  match b.db.users.find? (fun u => u.username == username) with
  | none => (b, false)
  | some user =>
    if user.password_hash ≠ hash_password password then (b, false)
    else
      match findAccount b.db user.account_number with
      | none => (b, false)
      | some acct =>
        ({ b with
            token := some (generate_token user.username user.account_number now),
            current_user := some ⟨user.username, user.account_number, acct.name, acct.balance⟩ },
          true)

/-- Bank.deposit (lines 215-228), behind the authenticate decorator
(which only checks that current_user is set): for a positive amount,
add it to the stored balance, insert a Deposit record, commit, and add
it to the cached balance. -/
def deposit (b : Bank) (now : Nat) (amount : ℚ) : Bank × OpResult :=
  match b.current_user with
  | none => (b, .notLoggedIn)
  | some cu =>
    if amount > 0 then
      ({ b with
          db := { b.db with
            accounts := updateBalance b.db.accounts cu.account_number amount,
            transactions := b.db.transactions ++
              [⟨b.db.nextTxId, cu.account_number, "Deposit", amount, none, now⟩],
            nextTxId := b.db.nextTxId + 1 },
          current_user := some { cu with balance := cu.balance + amount } },
        .success)
    else (b, .invalidAmount)

/-- Bank.withdraw (lines 230-245): the insufficiency test compares the
amount against the CACHED balance current_user[balance], not a fresh
read; on success the stored balance is decremented, a record of type
Withdraw (sic) is inserted, and the cache is decremented. -/
def withdraw (b : Bank) (now : Nat) (amount : ℚ) : Bank × OpResult :=
  match b.current_user with
  | none => (b, .notLoggedIn)
  | some cu =>
    if amount > cu.balance then (b, .insufficientFunds)
    else if amount ≤ 0 then (b, .invalidAmount)
    else
      ({ b with
          db := { b.db with
            accounts := updateBalance b.db.accounts cu.account_number (-amount),
            transactions := b.db.transactions ++
              [⟨b.db.nextTxId, cu.account_number, "Withdraw", amount, none, now⟩],
            nextTxId := b.db.nextTxId + 1 },
          current_user := some { cu with balance := cu.balance - amount } },
        .success)

/-- Bank.transfer_money (lines 258-299): reject a self-transfer, then a
missing recipient, then amount > CACHED sender balance; otherwise debit
the sender, credit the recipient, insert the Transfer Sent and Transfer
Received records in one transaction, and decrement the cache.  The
source never checks amount > 0. -/
def transfer_money (b : Bank) (now : Nat) (to_account : String) (amount : ℚ) :
    Bank × OpResult :=
  match b.current_user with
  | none => (b, .notLoggedIn)
  | some cu =>
    if to_account = cu.account_number then (b, .selfTransfer)
    else
      match findAccount b.db to_account with
      | none => (b, .accountNotFound)
      | some _ =>
        if amount > cu.balance then (b, .insufficientFunds)
        else
          ({ b with
              db := { b.db with
                accounts := updateBalance
                  (updateBalance b.db.accounts cu.account_number (-amount)) to_account amount,
                transactions := b.db.transactions ++
                  [⟨b.db.nextTxId, cu.account_number, "Transfer Sent", amount, some to_account, now⟩,
                   ⟨b.db.nextTxId + 1, to_account, "Transfer Received", amount,
                     some cu.account_number, now⟩],
                nextTxId := b.db.nextTxId + 2 },
              current_user := some { cu with balance := cu.balance - amount } },
            .success)

/-- Bank.get_transaction_history (lines 301-318): the last 10 records of
the logged-in account, newest first. -/
def get_transaction_history (b : Bank) : List TxRecord :=
  match b.current_user with
  | none => []
  | some cu => queryHistory b.db cu.account_number 10

end Bank

/-- One console request within a session (the rate limiter only ever
refuses a request leaving all state unchanged, so it is dropped). -/
inductive ConsoleOp where
  | deposit (now : Nat) (amount : ℚ)
  | withdraw (now : Nat) (amount : ℚ)
  | transfer (now : Nat) (to_account : String) (amount : ℚ)

/-- Resulting Bank object of one console request. -/
def applyConsoleOp (b : Bank) : ConsoleOp → Bank
  | .deposit now amount => (Bank.deposit b now amount).1
  | .withdraw now amount => (Bank.withdraw b now amount).1
  | .transfer now t amount => (Bank.transfer_money b now t amount).1

/-- Resulting Bank object of a sequence of console requests. -/
def applyConsoleOps (b : Bank) (ops : List ConsoleOp) : Bank :=
  ops.foldl applyConsoleOp b

/-- The console cache agrees with the store: whenever a user is logged
in, the cached balance of current_user equals the balance stored for
that account. -/
def CacheConsistent (b : Bank) : Prop :=
  ∀ cu, b.current_user = some cu → getBalance b.db cu.account_number = some cu.balance

instance : IsTotal TxRecord (fun a b => b.timestamp ≤ a.timestamp) :=
  ⟨fun a b => Nat.le_total b.timestamp a.timestamp⟩

instance : IsTrans TxRecord (fun a b => b.timestamp ≤ a.timestamp) :=
  ⟨fun _ _ _ hab hbc => Nat.le_trans hbc hab⟩

/-- Concrete store used by the witness and counterexample theorems: two
accounts A (balance 100) and B (balance 5) and one registered user
(username u, password pw, account A), no transactions yet. -/
def exDB : DB :=
  { accounts := [⟨"A", "Alice", 100⟩, ⟨"B", "Bob", 5⟩],
    users := [⟨"u", "A", hash_password "pw"⟩],
    transactions := [],
    nextTxId := 0 }

/-- Concrete store whose transaction log holds two records of account A
with the same server timestamp (CURRENT_TIMESTAMP has one-second
resolution, so equal timestamps occur for consecutive operations). -/
def exDB6 : DB :=
  { accounts := [⟨"A", "Alice", 100⟩],
    users := [],
    transactions := [⟨1, "A", "Deposit", 10, none, 5⟩, ⟨2, "A", "Deposit", 20, none, 5⟩],
    nextTxId := 3 }

/-- A console Bank object freshly connected to exDB, before login. -/
def exBank : Bank := ⟨exDB, none, none⟩

/-- The console Bank after logging in as u at time 0: the cache holds
balance 100 and the token expires at time 30. -/
def exBankLoggedIn : Bank := (Bank.login exBank 0 "u" "pw").1

/-- The logged-in console Bank after an out-of-band operation on the
shared store (a web withdrawal of the full 100 from account A) emptied
the stored balance while the console cache still holds 100. -/
def exBankStale : Bank :=
  { exBankLoggedIn with db := (App.withdraw exBankLoggedIn.db "A" 1 100).1 }

/-! ### Lemmas about the row-level embedding of the SQL statements -/

theorem account_number_updateRow (a : Account) (k : String) (δ : ℚ) :
    (if a.account_number = k then { a with balance := a.balance + δ } else a).account_number
      = a.account_number := by
  by_cases h : a.account_number = k <;> simp [h]

theorem findAcc_cons (a : Account) (l : List Account) (k : String) :
    findAcc (a :: l) k = if a.account_number = k then some a else findAcc l k := by
  by_cases h : a.account_number = k
  · rw [if_pos h]; exact List.find?_cons_of_pos _ (by simp [h])
  · rw [if_neg h]; exact List.find?_cons_of_neg _ (by simp [h])

theorem updateBalance_cons (a : Account) (l : List Account) (k : String) (δ : ℚ) :
    updateBalance (a :: l) k δ
      = (if a.account_number = k then { a with balance := a.balance + δ } else a)
          :: updateBalance l k δ := rfl

theorem totalBalance_cons (a : Account) (l : List Account) :
    totalBalance (a :: l) = a.balance + totalBalance l := by
  simp [totalBalance]

theorem findAcc_updateBalance_self (l : List Account) (k : String) (δ : ℚ) :
    findAcc (updateBalance l k δ) k
      = (findAcc l k).map (fun a => { a with balance := a.balance + δ }) := by
  induction l with
  | nil => rfl
  | cons a t ih =>
    rw [updateBalance_cons, findAcc_cons, account_number_updateRow, findAcc_cons]
    by_cases h : a.account_number = k
    · rw [if_pos h, if_pos h, if_pos h, Option.map_some']
    · rw [if_neg h, if_neg h, ih]

theorem findAcc_updateBalance_ne (l : List Account) (k k' : String) (δ : ℚ) (h : k' ≠ k) :
    findAcc (updateBalance l k δ) k' = findAcc l k' := by
  induction l with
  | nil => rfl
  | cons a t ih =>
    rw [updateBalance_cons, findAcc_cons, account_number_updateRow, findAcc_cons]
    by_cases ha : a.account_number = k'
    · have hak : a.account_number ≠ k := by rw [ha]; exact h
      rw [if_pos ha, if_pos ha, if_neg hak]
    · rw [if_neg ha, if_neg ha, ih]

theorem keys_updateBalance (l : List Account) (k : String) (δ : ℚ) :
    (updateBalance l k δ).map Account.account_number = l.map Account.account_number := by
  induction l with
  | nil => rfl
  | cons a t ih =>
    rw [updateBalance_cons, List.map_cons, List.map_cons, account_number_updateRow, ih]

theorem updateBalance_of_not_mem (l : List Account) (k : String) (δ : ℚ)
    (h : k ∉ l.map Account.account_number) : updateBalance l k δ = l := by
  induction l with
  | nil => rfl
  | cons a t ih =>
    simp only [List.map_cons, List.mem_cons] at h
    push_neg at h
    have ha : a.account_number ≠ k := fun hc => h.1 hc.symm
    rw [updateBalance_cons, if_neg ha, ih h.2]

theorem totalBalance_updateBalance (l : List Account) (k : String) (δ : ℚ)
    (hnd : (l.map Account.account_number).Nodup) (hmem : (findAcc l k).isSome) :
    totalBalance (updateBalance l k δ) = totalBalance l + δ := by
  induction l with
  | nil => simp [findAcc] at hmem
  | cons a t ih =>
    simp only [List.map_cons, List.nodup_cons] at hnd
    rw [updateBalance_cons]
    by_cases h : a.account_number = k
    · have hnot : k ∉ t.map Account.account_number := by rw [← h]; exact hnd.1
      rw [if_pos h, updateBalance_of_not_mem t k δ hnot, totalBalance_cons, totalBalance_cons]
      show a.balance + δ + totalBalance t = a.balance + totalBalance t + δ
      ring
    · have hmem' : (findAcc t k).isSome := by
        rw [findAcc_cons, if_neg h] at hmem; exact hmem
      rw [if_neg h, totalBalance_cons, totalBalance_cons, ih hnd.2 hmem']
      ring

theorem findAcc_eq_of_mem (l : List Account) (k : String) (a : Account)
    (hnd : (l.map Account.account_number).Nodup) (ha : a ∈ l) (hk : a.account_number = k) :
    findAcc l k = some a := by
  induction l with
  | nil => cases ha
  | cons b t ih =>
    simp only [List.map_cons, List.nodup_cons] at hnd
    rcases List.mem_cons.mp ha with rfl | hat
    · rw [findAcc_cons, if_pos hk]
    · have hbk : b.account_number ≠ k := by
        intro hc
        exact hnd.1 (by rw [hc, ← hk]; exact List.mem_map_of_mem Account.account_number hat)
      rw [findAcc_cons, if_neg hbk]
      exact ih hnd.2 hat

theorem findAcc_isSome_iff (l : List Account) (k : String) :
    (findAcc l k).isSome ↔ k ∈ l.map Account.account_number := by
  induction l with
  | nil => simp [findAcc]
  | cons a t ih =>
    rw [findAcc_cons, List.map_cons, List.mem_cons]
    by_cases h : a.account_number = k
    · simp [h]
    · have hne : k ≠ a.account_number := fun hc => h hc.symm
      simp only [if_neg h, ih]
      exact (or_iff_right hne).symm

/-! ### Preservation lemmas: non-negative balances and schema keys -/

theorem nonneg_updateBalance_add (l : List Account) (k : String) (amount : ℚ)
    (hnn : ∀ a ∈ l, 0 ≤ a.balance) (hpos : 0 ≤ amount) :
    ∀ a ∈ updateBalance l k amount, 0 ≤ a.balance := by
  intro x hx
  rcases List.mem_map.mp hx with ⟨a, hal, rfl⟩
  by_cases h : a.account_number = k
  · rw [if_pos h]
    have := hnn a hal
    show 0 ≤ a.balance + amount
    linarith
  · rw [if_neg h]
    exact hnn a hal

theorem nonneg_updateBalance_sub (l : List Account) (k : String) (amount : ℚ)
    (hnn : ∀ a ∈ l, 0 ≤ a.balance) (hnd : (l.map Account.account_number).Nodup)
    (a0 : Account) (hfind : findAcc l k = some a0) (hle : amount ≤ a0.balance) :
    ∀ a ∈ updateBalance l k (-amount), 0 ≤ a.balance := by
  intro x hx
  rcases List.mem_map.mp hx with ⟨a, hal, rfl⟩
  by_cases h : a.account_number = k
  · have ha0 : findAcc l k = some a := findAcc_eq_of_mem l k a hnd hal h
    rw [hfind] at ha0
    have haa : a0 = a := Option.some_injective _ ha0
    rw [if_pos h]
    show 0 ≤ a.balance + -amount
    rw [← haa]
    linarith
  · rw [if_neg h]
    exact hnn a hal

theorem getBalance_some_elim (db : DB) (k : String) (bal : ℚ)
    (h : getBalance db k = some bal) :
    ∃ a0, findAcc db.accounts k = some a0 ∧ a0.balance = bal := by
  rw [getBalance, findAccount] at h
  rcases hf : findAcc db.accounts k with _ | a0
  · rw [hf] at h; cases h
  · rw [hf] at h
    exact ⟨a0, rfl, Option.some_injective _ h⟩

theorem applyOp_preserves (db : DB) (op : Op) (hg : op.guarded)
    (h : nonNegBalances db ∧ pkOK db) :
    nonNegBalances (applyOp db op) ∧ pkOK (applyOp db op) := by
  obtain ⟨hnn, hpk⟩ := h
  cases op with
  | register u p n d a =>
    show nonNegBalances (App.register db u p n d a).1 ∧ pkOK (App.register db u p n d a).1
    unfold App.register
    by_cases h1 : (db.users.find? (fun x => x.username == u)).isSome
    · rw [if_pos h1]; exact ⟨hnn, hpk⟩
    · rw [if_neg h1]
      by_cases h2 : (findAccount db a).isSome
      · rw [if_pos h2]; exact ⟨hnn, hpk⟩
      · rw [if_neg h2]
        have hd : (0 : ℚ) ≤ d := hg
        have hnotmem : a ∉ db.accounts.map Account.account_number := by
          rw [findAccount] at h2
          intro hc
          exact h2 ((findAcc_isSome_iff db.accounts a).mpr hc)
        constructor
        · intro x hx
          rcases List.mem_append.mp hx with hx | hx
          · exact hnn x hx
          · rcases List.mem_singleton.mp hx with rfl
            exact hd
        · show ((db.accounts ++ [({ account_number := a, name := n, balance := d } : Account)]).map
            Account.account_number).Nodup
          rw [List.map_append, List.nodup_append]
          refine ⟨hpk, by simp, ?_⟩
          intro x hx hx2
          simp only [List.map_cons, List.map_nil, List.mem_singleton] at hx2
          exact hnotmem (by rw [← hx2]; exact hx)
  | deposit acct now amount =>
    show nonNegBalances (App.deposit db acct now amount).1 ∧ pkOK (App.deposit db acct now amount).1
    unfold App.deposit
    by_cases h1 : amount ≤ 0
    · rw [if_pos h1]; exact ⟨hnn, hpk⟩
    · rw [if_neg h1]
      refine ⟨nonneg_updateBalance_add _ _ _ hnn (by linarith [lt_of_not_le h1]), ?_⟩
      show ((updateBalance db.accounts acct amount).map Account.account_number).Nodup
      rw [keys_updateBalance]
      exact hpk
  | withdraw acct now amount =>
    show nonNegBalances (App.withdraw db acct now amount).1 ∧ pkOK (App.withdraw db acct now amount).1
    unfold App.withdraw
    by_cases h1 : amount ≤ 0
    · rw [if_pos h1]; exact ⟨hnn, hpk⟩
    · rw [if_neg h1]
      rcases hbal : getBalance db acct with _ | bal
      · exact ⟨hnn, hpk⟩
      · dsimp only
        by_cases h2 : amount > bal
        · rw [if_pos h2]; exact ⟨hnn, hpk⟩
        · rw [if_neg h2]
          rcases getBalance_some_elim db acct bal hbal with ⟨a0, hfind, hba⟩
          refine ⟨nonneg_updateBalance_sub _ _ _ hnn hpk a0 hfind ?_, ?_⟩
          · rw [hba]; exact le_of_not_lt h2
          · show ((updateBalance db.accounts acct (-amount)).map Account.account_number).Nodup
            rw [keys_updateBalance]
            exact hpk
  | transfer f now t amount =>
    show nonNegBalances (App.transfer db f now t amount).1 ∧ pkOK (App.transfer db f now t amount).1
    unfold App.transfer
    by_cases h1 : t = f
    · rw [if_pos h1]; exact ⟨hnn, hpk⟩
    · rw [if_neg h1]
      rcases hto : findAccount db t with _ | tAcc
      · exact ⟨hnn, hpk⟩
      · dsimp only
        rcases hbal : getBalance db f with _ | senderBal
        · exact ⟨hnn, hpk⟩
        · dsimp only
          by_cases h2 : amount > senderBal
          · rw [if_pos h2]; exact ⟨hnn, hpk⟩
          · rw [if_neg h2]
            rcases getBalance_some_elim db f senderBal hbal with ⟨a0, hfind, hba⟩
            have hpos : (0 : ℚ) < amount := hg
            have hdebit : ∀ a ∈ updateBalance db.accounts f (-amount), 0 ≤ a.balance :=
              nonneg_updateBalance_sub _ _ _ hnn hpk a0 hfind
                (by rw [hba]; exact le_of_not_lt h2)
            refine ⟨nonneg_updateBalance_add _ _ _ hdebit (le_of_lt hpos), ?_⟩
            show ((updateBalance (updateBalance db.accounts f (-amount)) t amount).map
              Account.account_number).Nodup
            rw [keys_updateBalance, keys_updateBalance]
            exact hpk

theorem applyOps_preserves (ops : List Op) (db : DB) (hg : ∀ op ∈ ops, op.guarded)
    (h : nonNegBalances db ∧ pkOK db) :
    nonNegBalances (applyOps db ops) ∧ pkOK (applyOps db ops) := by
  induction ops generalizing db with
  | nil => exact h
  | cons op rest ih =>
    have hstep := applyOp_preserves db op (hg op (List.mem_cons_self op rest)) h
    exact ih (applyOp db op) (fun x hx => hg x (List.mem_cons_of_mem op hx)) hstep

/-! ### Preservation of the console cache-store agreement -/

theorem cacheConsistent_login (b : Bank) (now : Nat) (u p : String)
    (h : CacheConsistent b) : CacheConsistent (Bank.login b now u p).1 := by
  rcases hu : b.db.users.find? (fun x => x.username == u) with _ | user
  · unfold Bank.login
    rw [hu]
    exact h
  · rcases ha : findAccount b.db user.account_number with _ | acct
    · unfold Bank.login
      rw [hu]
      dsimp only
      by_cases hp : user.password_hash ≠ hash_password p
      · rw [if_pos hp]; exact h
      · rw [if_neg hp, ha]; exact h
    · unfold Bank.login
      rw [hu]
      dsimp only
      by_cases hp : user.password_hash ≠ hash_password p
      · rw [if_pos hp]; exact h
      · rw [if_neg hp, ha]
        intro cu hcu
        have hcu' : cu = ⟨user.username, user.account_number, acct.name, acct.balance⟩ :=
          (Option.some_injective _ hcu).symm
        subst hcu'
        show getBalance b.db user.account_number = some acct.balance
        rw [getBalance, ha]
        rfl

theorem cacheConsistent_applyConsoleOp (b : Bank) (op : ConsoleOp)
    (h : CacheConsistent b) : CacheConsistent (applyConsoleOp b op) := by
  cases op with
  | deposit now amount =>
    show CacheConsistent (Bank.deposit b now amount).1
    rcases hcu : b.current_user with _ | cu
    · unfold Bank.deposit
      rw [hcu]
      exact h
    · unfold Bank.deposit
      rw [hcu]
      dsimp only
      by_cases h1 : amount > 0
      · rw [if_pos h1]
        intro cu' hcu'
        have : cu' = { cu with balance := cu.balance + amount } :=
          (Option.some_injective _ hcu').symm
        subst this
        show getBalance
          { b.db with
            accounts := updateBalance b.db.accounts cu.account_number amount,
            transactions := _, nextTxId := _ } cu.account_number = some (cu.balance + amount)
        rcases getBalance_some_elim b.db cu.account_number cu.balance (h cu hcu) with
          ⟨a0, hfind, hba⟩
        rw [getBalance, findAccount]
        show (findAcc (updateBalance b.db.accounts cu.account_number amount)
          cu.account_number).map Account.balance = _
        rw [findAcc_updateBalance_self, hfind]
        simp only [Option.map_some']
        rw [hba]
      · rw [if_neg h1]; exact h
  | withdraw now amount =>
    show CacheConsistent (Bank.withdraw b now amount).1
    rcases hcu : b.current_user with _ | cu
    · unfold Bank.withdraw
      rw [hcu]
      exact h
    · unfold Bank.withdraw
      rw [hcu]
      dsimp only
      by_cases h1 : amount > cu.balance
      · rw [if_pos h1]; exact h
      · rw [if_neg h1]
        by_cases h2 : amount ≤ 0
        · rw [if_pos h2]; exact h
        · rw [if_neg h2]
          intro cu' hcu'
          have : cu' = { cu with balance := cu.balance - amount } :=
            (Option.some_injective _ hcu').symm
          subst this
          rcases getBalance_some_elim b.db cu.account_number cu.balance (h cu hcu) with
            ⟨a0, hfind, hba⟩
          show getBalance
            { b.db with
              accounts := updateBalance b.db.accounts cu.account_number (-amount),
              transactions := _, nextTxId := _ } cu.account_number = some (cu.balance - amount)
          rw [getBalance, findAccount]
          show (findAcc (updateBalance b.db.accounts cu.account_number (-amount))
            cu.account_number).map Account.balance = _
          rw [findAcc_updateBalance_self, hfind]
          simp only [Option.map_some']
          rw [hba]
          congr 1
          ring
  | transfer now t amount =>
    show CacheConsistent (Bank.transfer_money b now t amount).1
    rcases hcu : b.current_user with _ | cu
    · unfold Bank.transfer_money
      rw [hcu]
      exact h
    · rcases hto : findAccount b.db t with _ | tAcc
      · unfold Bank.transfer_money
        rw [hcu]
        dsimp only
        by_cases h1 : t = cu.account_number
        · rw [if_pos h1]; exact h
        · rw [if_neg h1, hto]; exact h
      · unfold Bank.transfer_money
        rw [hcu]
        dsimp only
        by_cases h1 : t = cu.account_number
        · rw [if_pos h1]; exact h
        · rw [if_neg h1, hto]
          dsimp only
          by_cases h2 : amount > cu.balance
          · rw [if_pos h2]; exact h
          · rw [if_neg h2]
            intro cu' hcu'
            have : cu' = { cu with balance := cu.balance - amount } :=
              (Option.some_injective _ hcu').symm
            subst this
            rcases getBalance_some_elim b.db cu.account_number cu.balance (h cu hcu) with
              ⟨a0, hfind, hba⟩
            show getBalance
              { b.db with
                accounts := updateBalance
                  (updateBalance b.db.accounts cu.account_number (-amount)) t amount,
                transactions := _, nextTxId := _ } cu.account_number
              = some (cu.balance - amount)
            rw [getBalance, findAccount]
            show (findAcc (updateBalance
                (updateBalance b.db.accounts cu.account_number (-amount)) t amount)
              cu.account_number).map Account.balance = _
            rw [findAcc_updateBalance_ne _ _ _ _ (fun hc => h1 hc.symm),
              findAcc_updateBalance_self, hfind]
            simp only [Option.map_some']
            rw [hba]
            congr 1
            ring

theorem cacheConsistent_applyConsoleOps (ops : List ConsoleOp) (b : Bank)
    (h : CacheConsistent b) : CacheConsistent (applyConsoleOps b ops) := by
  induction ops generalizing b with
  | nil => exact h
  | cons op rest ih =>
    exact ih (applyConsoleOp b op) (cacheConsistent_applyConsoleOp b op h)

/-! ### The claims -/

/-- C1: for every transfer between two distinct existing accounts where
the sender's stored balance is at least the positive amount, the
operation succeeds, decreases the sender's stored balance by exactly the
amount, increases the recipient's stored balance by exactly the amount,
appends exactly two transaction records — a Transfer Sent record owned
by the sender with related account the recipient, and a Transfer
Received record owned by the recipient with related account the sender,
both carrying the amount — and leaves the sum of all stored balances
unchanged. -/
theorem C1_transfer_moves_money (db : DB) (fromAcct toAcct : String) (now : Nat) (amount : ℚ)
    (tAcc : Account) (senderBal : ℚ)
    (hpk : pkOK db) (hne : fromAcct ≠ toAcct)
    (hto : findAccount db toAcct = some tAcc)
    (hfrom : getBalance db fromAcct = some senderBal)
    (hpos : 0 < amount) (hle : amount ≤ senderBal) :
    (App.transfer db fromAcct now toAcct amount).2 = OpResult.success ∧
    getBalance (App.transfer db fromAcct now toAcct amount).1 fromAcct
      = some (senderBal - amount) ∧
    getBalance (App.transfer db fromAcct now toAcct amount).1 toAcct
      = some (tAcc.balance + amount) ∧
    (App.transfer db fromAcct now toAcct amount).1.transactions
      = db.transactions ++
        [⟨db.nextTxId, fromAcct, "Transfer Sent", amount, some toAcct, now⟩,
         ⟨db.nextTxId + 1, toAcct, "Transfer Received", amount, some fromAcct, now⟩] ∧
    totalBalance (App.transfer db fromAcct now toAcct amount).1.accounts
      = totalBalance db.accounts := by
  have hne' : ¬ (toAcct = fromAcct) := fun hc => hne hc.symm
  have hnotgt : ¬ amount > senderBal := not_lt.mpr hle
  rcases getBalance_some_elim db fromAcct senderBal hfrom with ⟨a0, hfind, hback⟩
  unfold App.transfer
  rw [if_neg hne', hto]
  dsimp only
  rw [hfrom]
  dsimp only
  rw [if_neg hnotgt]
  refine ⟨rfl, ?_, ?_, rfl, ?_⟩
  · show (findAcc (updateBalance (updateBalance db.accounts fromAcct (-amount)) toAcct amount)
      fromAcct).map Account.balance = some (senderBal - amount)
    rw [findAcc_updateBalance_ne _ _ _ _ hne, findAcc_updateBalance_self, hfind]
    simp only [Option.map_some']
    congr 1
    rw [← hback]
    ring
  · show (findAcc (updateBalance (updateBalance db.accounts fromAcct (-amount)) toAcct amount)
      toAcct).map Account.balance = some (tAcc.balance + amount)
    rw [findAcc_updateBalance_self, findAcc_updateBalance_ne _ _ _ _ hne',
      show findAcc db.accounts toAcct = some tAcc from hto]
    simp only [Option.map_some']
  · show totalBalance (updateBalance (updateBalance db.accounts fromAcct (-amount)) toAcct amount)
      = totalBalance db.accounts
    have hfromSome : (findAcc db.accounts fromAcct).isSome := by rw [hfind]; rfl
    have hk2 : ((updateBalance db.accounts fromAcct (-amount)).map Account.account_number).Nodup := by
      rw [keys_updateBalance]; exact hpk
    have htoSome : (findAcc (updateBalance db.accounts fromAcct (-amount)) toAcct).isSome := by
      rw [findAcc_updateBalance_ne _ _ _ _ hne',
        show findAcc db.accounts toAcct = some tAcc from hto]
      rfl
    rw [totalBalance_updateBalance _ _ _ hk2 htoSome,
      totalBalance_updateBalance _ _ _ hpk hfromSome]
    ring

/-- Witness for C1 at a concrete input: transferring 30 from A (balance
100) to B (balance 5) in exDB. -/
theorem C1_transfer_moves_money_witness :
    (App.transfer exDB "A" 7 "B" 30).2 = OpResult.success ∧
    getBalance (App.transfer exDB "A" 7 "B" 30).1 "A" = some (100 - 30) ∧
    getBalance (App.transfer exDB "A" 7 "B" 30).1 "B"
      = some ((⟨"B", "Bob", 5⟩ : Account).balance + 30) ∧
    (App.transfer exDB "A" 7 "B" 30).1.transactions
      = exDB.transactions ++
        [⟨exDB.nextTxId, "A", "Transfer Sent", 30, some "B", 7⟩,
         ⟨exDB.nextTxId + 1, "B", "Transfer Received", 30, some "A", 7⟩] ∧
    totalBalance (App.transfer exDB "A" 7 "B" 30).1.accounts = totalBalance exDB.accounts :=
  C1_transfer_moves_money exDB "A" "B" 7 30 ⟨"B", "Bob", 5⟩ 100
    (by decide) (by decide) (by decide) (by decide) (by decide) (by decide)

/-- Effect of a successful web deposit on the stored balance. -/
theorem deposit_getBalance (db : DB) (acct : String) (now : Nat) (a bal : ℚ)
    (hbal : getBalance db acct = some bal) (hpos : 0 < a) :
    getBalance (App.deposit db acct now a).1 acct = some (bal + a) := by
  rcases getBalance_some_elim db acct bal hbal with ⟨a0, hfind, hback⟩
  unfold App.deposit
  rw [if_neg (not_le.mpr hpos)]
  show (findAcc (updateBalance db.accounts acct a) acct).map Account.balance = some (bal + a)
  rw [findAcc_updateBalance_self, hfind]
  simp only [Option.map_some']
  rw [hback]

/-- Effect of a successful web withdrawal on the stored balance. -/
theorem withdraw_getBalance (db : DB) (acct : String) (now : Nat) (a bal : ℚ)
    (hbal : getBalance db acct = some bal) (hpos : 0 < a) (hle : a ≤ bal) :
    getBalance (App.withdraw db acct now a).1 acct = some (bal - a) := by
  rcases getBalance_some_elim db acct bal hbal with ⟨a0, hfind, hback⟩
  unfold App.withdraw
  rw [if_neg (not_le.mpr hpos), hbal]
  dsimp only
  rw [if_neg (not_lt.mpr hle)]
  show (findAcc (updateBalance db.accounts acct (-a)) acct).map Account.balance = some (bal - a)
  rw [findAcc_updateBalance_self, hfind]
  simp only [Option.map_some']
  rw [hback]
  congr 1
  ring

/-- C2 fails as stated: the code never validates the transfer amount, so
a transfer of a negative amount drives the recipient negative.  From
exDB, where every balance is non-negative, transferring -100 from A to B
leaves B at -95. -/
theorem C2_nonneg_counterexample :
    nonNegBalances exDB ∧
    ¬ nonNegBalances (applyOps exDB [Op.transfer "A" 0 "B" (-100)]) := by
  refine ⟨by decide, fun hall => ?_⟩
  have hfind : findAcc (applyOps exDB [Op.transfer "A" 0 "B" (-100)]).accounts "B"
      = some ⟨"B", "Bob", 5 + (-100)⟩ := by
    simp +decide [applyOps, applyOp, App.transfer, exDB, findAccount, findAcc,
      getBalance, updateBalance]
  have hmem := List.mem_of_find?_eq_some hfind
  have := hall _ hmem
  norm_num at this

/-- C2 amended: for every sequence of register, deposit, withdraw and
transfer operations in which each transfer carries a positive amount and
each registration a non-negative initial deposit (the validation the
specification prescribes but the code omits), a schema-consistent store
with non-negative balances keeps all balances non-negative. -/
theorem C2_nonneg_preserved (db : DB) (ops : List Op)
    (hg : ∀ op ∈ ops, op.guarded)
    (hnn : nonNegBalances db) (hpk : pkOK db) :
    nonNegBalances (applyOps db ops) :=
  (applyOps_preserves ops db hg ⟨hnn, hpk⟩).1

/-- Witness for C2 amended: a deposit, a withdrawal, a (positive)
transfer and a registration applied to exDB keep all balances
non-negative. -/
theorem C2_nonneg_preserved_witness :
    nonNegBalances (applyOps exDB
      [Op.deposit "A" 1 7, Op.withdraw "A" 2 3, Op.transfer "A" 3 "B" 4,
       Op.register "v" "pw2" "Vera" 1 "C"]) :=
  C2_nonneg_preserved exDB _
    (by
      intro op hop
      simp only [List.mem_cons, List.not_mem_nil, or_false] at hop
      rcases hop with rfl | rfl | rfl | rfl <;> norm_num [Op.guarded])
    (by decide) (by decide)

/-- C3: the specification requires a transfer with amount ≤ 0 (recipient
existing and distinct) to fail with InvalidAmount and change nothing;
the code performs no such check, so the transfer of -100 from A to B in
exDB succeeds, mutates both balances and inserts two records. -/
theorem C3_negative_transfer_accepted :
    (App.transfer exDB "A" 0 "B" (-100)).2 = OpResult.success ∧
    getBalance (App.transfer exDB "A" 0 "B" (-100)).1 "A" = some (100 + 100) ∧
    getBalance (App.transfer exDB "A" 0 "B" (-100)).1 "B" = some (5 - 100) ∧
    (App.transfer exDB "A" 0 "B" (-100)).1.transactions
      = [⟨0, "A", "Transfer Sent", -100, some "B", 0⟩,
         ⟨1, "B", "Transfer Received", -100, some "A", 0⟩] := by
  refine ⟨by decide, ?_, ?_, by decide⟩ <;>
    (simp +decide [App.transfer, exDB, findAccount, findAcc, getBalance, updateBalance] <;>
      norm_num)

/-- C4: in the console engine the insufficiency check compares against
the cached current_user balance, not a fresh read of the store.  In
exBankStale the store holds 0 for account A (a web withdrawal emptied it
after login) while the cache still holds 100; a console withdrawal of 50
therefore succeeds and drives the stored balance to -50, where the claim
requires an InsufficientFunds failure with no change. -/
theorem C4_stale_cache_overdraws :
    getBalance exBankStale.db "A" = some (100 - 100) ∧
    exBankStale.current_user = some ⟨"u", "A", "Alice", 100⟩ ∧
    (Bank.withdraw exBankStale 2 50).2 = OpResult.success ∧
    getBalance (Bank.withdraw exBankStale 2 50).1.db "A" = some (0 - 50) := by
  refine ⟨?_, by decide, by decide, ?_⟩ <;>
    simp +decide [exBankStale, exBankLoggedIn, exBank, exDB, Bank.login, Bank.withdraw,
      Bank.generate_token, App.withdraw, hash_password, getBalance, findAccount, findAcc,
      updateBalance]

/-- C5: registering with a username already present in the users table
reports the duplicate and leaves the store exactly as it was, with no
new account row and no new user row, in both the web handler and the
console engine. -/
theorem C5_duplicate_username_rejected :
    (∀ (db : DB) (u p n : String) (d : ℚ) (a : String),
      (db.users.find? (fun x => x.username == u)).isSome →
        App.register db u p n d a = (db, OpResult.duplicateUsername)) ∧
    (∀ (b : Bank) (u p n : String) (d : ℚ) (a : String),
      (b.db.users.find? (fun x => x.username == u)).isSome →
        Bank.register b u p n d a = (b, false)) := by
  constructor
  · intro db u p n d a h
    unfold App.register
    rw [if_pos h]
  · intro b u p n d a h
    unfold Bank.register
    rw [if_pos h]

/-- Witness for C5: re-registering the existing username u against exDB
is rejected by both engines without touching the store. -/
theorem C5_duplicate_username_rejected_witness :
    App.register exDB "u" "hunter2" "Eve" 3 "C" = (exDB, OpResult.duplicateUsername) ∧
    Bank.register exBank "u" "hunter2" "Eve" 3 "C" = (exBank, false) :=
  ⟨C5_duplicate_username_rejected.1 exDB "u" "hunter2" "Eve" 3 "C" (by decide),
   C5_duplicate_username_rejected.2 exBank "u" "hunter2" "Eve" 3 "C" (by decide)⟩

/-- C6 fails as stated on ties: the SQL query orders by timestamp alone
with no later-first tie-breaker, and on the embedding's stable sort two
equal-timestamp records come back in insertion order, earlier first.
In exDB6 the records with ids 1 and 2 share timestamp 5; the claim as
stated demands [id 2, id 1], but the query returns [id 1, id 2]. -/
theorem C6_tie_order_counterexample :
    queryHistory exDB6 "A" 5
      = [⟨1, "A", "Deposit", 10, none, 5⟩, ⟨2, "A", "Deposit", 20, none, 5⟩] ∧
    queryHistory exDB6 "A" 5
      ≠ [⟨2, "A", "Deposit", 20, none, 5⟩, ⟨1, "A", "Deposit", 10, none, 5⟩] := by
  constructor
  · decide
  · decide

/-- C6 amended: for every account and limit the history query returns at
most limit of the account's records, in non-increasing timestamp order
(newest first); the relative order of equal-timestamp records is the
insertion (scan) order, earlier first, not the later-first order the
claim states. -/
theorem C6_history_bounded_and_sorted (db : DB) (acct : String) (limit : Nat) :
    (queryHistory db acct limit).length ≤ limit ∧
    (queryHistory db acct limit).Pairwise (fun a b => b.timestamp ≤ a.timestamp) := by
  constructor
  · show ((List.insertionSort _ _).take limit).length ≤ limit
    rw [List.length_take]
    exact min_le_left _ _
  · exact List.Pairwise.sublist (List.take_sublist _ _) (List.sorted_insertionSort _ _)

/-- C7 fails as stated on the record kind: the console engine inserts
its withdrawal record with type Withdraw, which is not the Withdrawal
kind (nor any of the four kinds) the claim names.  A console withdrawal
of 40 from the logged-in exDB session shows it. -/
theorem C7_console_type_counterexample :
    (Bank.withdraw exBankLoggedIn 3 40).2 = OpResult.success ∧
    (Bank.withdraw exBankLoggedIn 3 40).1.db.transactions.map TxRecord.type = ["Withdraw"] ∧
    ("Withdraw" : String) ∉ ["Deposit", "Withdrawal", "Transfer Sent", "Transfer Received"] :=
  ⟨by decide, by decide, by decide⟩

/-- C7 amended: a successful withdrawal of a positive amount within the
checked balance decrements the stored balance by the amount and appends
exactly one transaction record carrying the amount, committed together
with the balance update; the web engine stamps the record Withdrawal
while the console engine stamps it Withdraw. -/
theorem C7_withdraw_effects :
    (∀ (db : DB) (acct : String) (now : Nat) (amount bal : ℚ),
      getBalance db acct = some bal → 0 < amount → amount ≤ bal →
      (App.withdraw db acct now amount).2 = OpResult.success ∧
      getBalance (App.withdraw db acct now amount).1 acct = some (bal - amount) ∧
      (App.withdraw db acct now amount).1.transactions
        = db.transactions ++ [⟨db.nextTxId, acct, "Withdrawal", amount, none, now⟩]) ∧
    (∀ (b : Bank) (now : Nat) (amount : ℚ) (cu : Identity) (sbal : ℚ),
      b.current_user = some cu → getBalance b.db cu.account_number = some sbal →
      0 < amount → amount ≤ cu.balance →
      (Bank.withdraw b now amount).2 = OpResult.success ∧
      getBalance (Bank.withdraw b now amount).1.db cu.account_number = some (sbal - amount) ∧
      (Bank.withdraw b now amount).1.db.transactions
        = b.db.transactions ++
          [⟨b.db.nextTxId, cu.account_number, "Withdraw", amount, none, now⟩]) := by
  constructor
  · intro db acct now amount bal hbal hpos hle
    rcases getBalance_some_elim db acct bal hbal with ⟨a0, hfind, hback⟩
    unfold App.withdraw
    rw [if_neg (not_le.mpr hpos), hbal]
    dsimp only
    rw [if_neg (not_lt.mpr hle)]
    refine ⟨rfl, ?_, rfl⟩
    show (findAcc (updateBalance db.accounts acct (-amount)) acct).map Account.balance
      = some (bal - amount)
    rw [findAcc_updateBalance_self, hfind]
    simp only [Option.map_some']
    congr 1
    rw [← hback]
    ring
  · intro b now amount cu sbal hcu hsb hpos hle
    rcases getBalance_some_elim b.db cu.account_number sbal hsb with ⟨a0, hfind, hback⟩
    unfold Bank.withdraw
    rw [hcu]
    dsimp only
    rw [if_neg (not_lt.mpr hle), if_neg (not_le.mpr hpos)]
    refine ⟨rfl, ?_, rfl⟩
    show (findAcc (updateBalance b.db.accounts cu.account_number (-amount))
      cu.account_number).map Account.balance = some (sbal - amount)
    rw [findAcc_updateBalance_self, hfind]
    simp only [Option.map_some']
    congr 1
    rw [← hback]
    ring

/-- Witness for C7 amended: withdrawing 40 from account A through each
engine. -/
theorem C7_withdraw_effects_witness :
    ((App.withdraw exDB "A" 9 40).2 = OpResult.success ∧
      getBalance (App.withdraw exDB "A" 9 40).1 "A" = some (100 - 40) ∧
      (App.withdraw exDB "A" 9 40).1.transactions
        = exDB.transactions ++ [⟨exDB.nextTxId, "A", "Withdrawal", 40, none, 9⟩]) ∧
    ((Bank.withdraw exBankLoggedIn 9 40).2 = OpResult.success ∧
      getBalance (Bank.withdraw exBankLoggedIn 9 40).1.db
        (⟨"u", "A", "Alice", 100⟩ : Identity).account_number = some (100 - 40) ∧
      (Bank.withdraw exBankLoggedIn 9 40).1.db.transactions
        = exBankLoggedIn.db.transactions ++
          [⟨exBankLoggedIn.db.nextTxId, (⟨"u", "A", "Alice", 100⟩ : Identity).account_number,
            "Withdraw", 40, none, 9⟩]) :=
  ⟨C7_withdraw_effects.1 exDB "A" 9 40 100 (by decide) (by decide) (by decide),
   C7_withdraw_effects.2 exBankLoggedIn 9 40 ⟨"u", "A", "Alice", 100⟩ 100
     (by decide) (by decide) (by decide) (by decide)⟩

/-- C8: a successful deposit of a positive amount a followed by a
successful withdrawal of a on the same account restores the stored
balance to its value before the pair, provided a does not exceed the
balance available at the withdrawal. -/
theorem C8_deposit_withdraw_roundtrip (db : DB) (acct : String) (n1 n2 : Nat) (a b0 : ℚ)
    (hbal : getBalance db acct = some b0) (hpos : 0 < a) (havail : a ≤ b0 + a) :
    getBalance (App.withdraw (App.deposit db acct n1 a).1 acct n2 a).1 acct = some b0 := by
  have h1 := deposit_getBalance db acct n1 a b0 hbal hpos
  have h2 := withdraw_getBalance (App.deposit db acct n1 a).1 acct n2 a (b0 + a) h1 hpos havail
  rw [h2]
  congr 1
  ring

/-- Witness for C8: deposit 7 then withdraw 7 on account A of exDB
leaves the balance at 100. -/
theorem C8_deposit_withdraw_roundtrip_witness :
    getBalance (App.withdraw (App.deposit exDB "A" 1 7).1 "A" 2 7).1 "A" = some 100 :=
  C8_deposit_withdraw_roundtrip exDB "A" 1 2 7 100 (by decide) (by decide) (by norm_num)

/-- C9: the claim is right and the code wrong.  Bank._verify_token does
report expiry and tampering without crashing, but no ledger operation
ever calls it: the authenticate gate checks only that current_user is
set, so a session whose token expired at time 30 still deposits
successfully at time 100 instead of being sent back to login. -/
theorem C9_expired_token_still_deposits :
    exBankLoggedIn.token = some ⟨⟨"u", "A", 30⟩, true⟩ ∧
    Bank.verify_token ⟨⟨"u", "A", 30⟩, true⟩ 100 = TokenCheck.expired ∧
    Bank.verify_token ⟨⟨"u", "A", 30⟩, false⟩ 100 = TokenCheck.invalid ∧
    (Bank.deposit exBankLoggedIn 100 5).2 = OpResult.success ∧
    getBalance (Bank.deposit exBankLoggedIn 100 5).1.db "A" = some (100 + 5) := by
  refine ⟨by decide, by decide, by decide, by decide, ?_⟩
  simp +decide [Bank.deposit, exBankLoggedIn, exBank, exDB, Bank.login, Bank.generate_token,
    hash_password, getBalance, findAccount, findAcc, updateBalance]

/-- C10: within a single console session — a fresh connection, one
login, no other writers on the store — the cached current_user balance
equals the stored balance of the logged-in account after every completed
deposit, withdraw or transfer request, successful or failed. -/
theorem C10_console_cache_tracks_store (db : DB) (now : Nat) (u p : String)
    (ops : List ConsoleOp) (cu : Identity)
    (h : (applyConsoleOps (Bank.login ⟨db, none, none⟩ now u p).1 ops).current_user = some cu) :
    getBalance (applyConsoleOps (Bank.login ⟨db, none, none⟩ now u p).1 ops).db
      cu.account_number = some cu.balance := by
  have h0 : CacheConsistent (⟨db, none, none⟩ : Bank) := by
    intro x hx
    exact Option.noConfusion hx
  exact cacheConsistent_applyConsoleOps ops _ (cacheConsistent_login _ now u p h0) cu h

/-- Witness for C10: after logging in as u (stored balance 100) and
depositing 7, the cache and the store both hold 107. -/
theorem C10_console_cache_tracks_store_witness :
    getBalance (applyConsoleOps (Bank.login ⟨exDB, none, none⟩ 0 "u" "pw").1
        [ConsoleOp.deposit 1 7]).db
      (⟨"u", "A", "Alice", 100 + 7⟩ : Identity).account_number
      = some (⟨"u", "A", "Alice", 100 + 7⟩ : Identity).balance :=
  C10_console_cache_tracks_store exDB 0 "u" "pw" [ConsoleOp.deposit 1 7]
    ⟨"u", "A", "Alice", 100 + 7⟩ (by rfl)
